import Mathlib

/-!
A verification development for the PiHub command server and dispatcher.

The definitions below are a shallow embedding of the C sources:
dispatcher.c (command tokenizer, registration table, execute path) and
network.c (server facade: read, write, shutdown, listener admission path,
per-client worker loop).  C strings are embedded as lists of byte values
without interior zero bytes; fixed-size C arrays holding strings are
embedded as the string content they carry.  Pointer-validity checks on
arguments that the embedding passes by value are represented by boolean
flags where a claim depends on them and are otherwise omitted.  Kernel
calls such as recv, send, accept and eventfd writes are embedded by
passing their observed results as explicit parameters.
-/

namespace PiHub

abbrev Byte := Nat

/-! Dispatcher constants, from include/app/dispatcher.h. -/

def DISPATCHER_MAX_CMD_COUNT : Nat := 16

def DISPATCHER_TARGET_MAX_SIZE : Nat := 32

def DISPATCHER_ACTION_MAX_SIZE : Nat := 32

def DISPATCHER_ARG_MAX_SIZE : Nat := 32

def DISPATCHER_MAX_DELIM_SIZE : Nat := 8

def DISPATCHER_MAX_ARGS : Nat := 10

/-- Maximum size of the input buffer, computed exactly as the C macro:
target + 1 + action + 1 + (arg + 1) * max args = 396. -/
def DISPATCHER_MAX_BUF_SIZE : Nat :=
  DISPATCHER_TARGET_MAX_SIZE + 1 + DISPATCHER_ACTION_MAX_SIZE + 1 +
    (DISPATCHER_ARG_MAX_SIZE + 1) * DISPATCHER_MAX_ARGS

/-- Error codes of the dispatcher, from DispatcherError_t. -/
inductive DispatcherError
  | ok
  | nullArg
  | invalidArg
  | idAlreadyTaken
  | cmdNotFound
  | bufEmpty
  | delimTooLong
  | tokenTooLong
  | bufTooLong
  | cmdIncomplete
  | tooManyArgs
  | pthreadFailure
  | generic
deriving DecidableEq, Repr

/-- Embedding of strnlen on a byte list holding a C string with no interior
zero byte: the result is the string length capped at the bound. -/
def strnlen (s : List Byte) (maxlen : Nat) : Nat := min s.length maxlen

/-- ASCII lower-casing of one byte, as tolower does on letters. -/
def toLowerByte (c : Byte) : Byte := if 65 ≤ c ∧ c ≤ 90 then c + 32 else c

/-- Embedding of strncasecmp(a, b, n) == 0 for C strings: byte-wise
case-insensitive comparison that stops at the end of either string
(the terminating zero byte) or after n bytes. -/
def strncaseeq : List Byte → List Byte → Nat → Bool
  | _, _, 0 => true
  | [], [], _ + 1 => true
  | [], _ :: _, _ + 1 => false
  | _ :: _, [], _ + 1 => false
  | a :: as, b :: bs, n + 1 =>
      (toLowerByte a == toLowerByte b) && strncaseeq as bs n

/-- Membership of a byte in the delimiter set, as strtok_r treats the
delimiter argument. -/
def isDelim (delim : List Byte) (c : Byte) : Bool := delim.contains c

/-- Embedding of one strtok_r step: skip leading delimiter bytes; if
nothing remains report no token; otherwise the token is the maximal
delimiter-free prefix and the saved rest pointer lands just past the
single delimiter byte that terminated the token (or on the terminating
zero byte when the token ran to the end of the buffer). -/
def strtok (delim : List Byte) (s : List Byte) : Option (List Byte × List Byte) :=
  let s1 := s.dropWhile (isDelim delim)
  match s1 with
  | [] => none
  | _ :: _ =>
      let tok := s1.takeWhile (fun c => !(isDelim delim c))
      let rest := s1.dropWhile (fun c => !(isDelim delim c))
      some (tok, rest.tail)

/-- The TokenizedCommand_t output of the tokenizer.  The argument count
field of the C struct equals the length of argv here. -/
structure TokenizedCommand where
  target : List Byte
  action : List Byte
  argv : List (List Byte)
deriving DecidableEq, Repr

def emptyTok : TokenizedCommand := ⟨[], [], []⟩

/-- The argument loop of dispatcher_tokenize: up to DISPATCHER_MAX_ARGS
iterations, each taking one token, checking its length with
strnlen(token, DISPATCHER_ARG_MAX_SIZE - 1) against
DISPATCHER_ARG_MAX_SIZE, and storing the token capped at 31 bytes.
Returns the error, the stored arguments, and the final rest pointer
content used by the trailing *next check. -/
def tokArgsLoop (delim : List Byte) : Nat → List Byte → DispatcherError × List (List Byte) × List Byte
  | 0, next => (.ok, [], next)
  | n + 1, next =>
      match strtok delim next with
      | none => (.ok, [], [])
      | some (tok, next2) =>
          if strnlen tok (DISPATCHER_ARG_MAX_SIZE - 1) ≥ DISPATCHER_ARG_MAX_SIZE then
            (.tokenTooLong, [], next2)
          else
            let r := tokArgsLoop delim n next2
            (r.1, tok.take (DISPATCHER_ARG_MAX_SIZE - 1) :: r.2.1, r.2.2)

/-- Embedding of dispatcher_tokenize.  The null-pointer guard on buf and
output is omitted (the embedding passes values).  The stored target and
action are the token capped at 31 bytes: memcpy of token_len + 1 bytes
followed by forcing a zero byte at index 31 yields exactly take 31. -/
def dispatcher_tokenize (delim buf : List Byte) : DispatcherError × TokenizedCommand :=
  let buf_len := strnlen buf (DISPATCHER_MAX_BUF_SIZE - 1)
  if buf_len ≥ DISPATCHER_MAX_BUF_SIZE then (.bufTooLong, emptyTok)
  else
    match strtok delim buf with
    | none => (.bufEmpty, emptyTok)
    | some (t1, n1) =>
        if strnlen t1 (DISPATCHER_TARGET_MAX_SIZE - 1) ≥ DISPATCHER_TARGET_MAX_SIZE then
          (.tokenTooLong, emptyTok)
        else
          let target := t1.take (DISPATCHER_TARGET_MAX_SIZE - 1)
          match strtok delim n1 with
          | none => (.cmdIncomplete, { emptyTok with target := target })
          | some (t2, n2) =>
              if strnlen t2 (DISPATCHER_ACTION_MAX_SIZE - 1) ≥ DISPATCHER_ACTION_MAX_SIZE then
                (.tokenTooLong, { emptyTok with target := target })
              else
                let action := t2.take (DISPATCHER_ACTION_MAX_SIZE - 1)
                let r := tokArgsLoop delim DISPATCHER_MAX_ARGS n2
                if r.1 ≠ .ok then (r.1, ⟨target, action, r.2.1⟩)
                else if r.2.2 ≠ [] then (.tooManyArgs, ⟨target, action, r.2.1⟩)
                else (.ok, ⟨target, action, r.2.1⟩)

/-- A command definition: target and action strings and the handler
pointer; none embeds a NULL callback pointer, some k a handler with
identity k. -/
structure DispatcherCommandDef where
  target : List Byte
  action : List Byte
  callback : Option Nat
deriving DecidableEq, Repr

/-- One slot of the command table: the valid flag and the definition. -/
structure DispatcherCommand where
  valid : Bool
  cfg : DispatcherCommandDef
deriving DecidableEq, Repr

/-- A recorded handler invocation: handler identity, argument vector,
argument count and the caller-supplied context identity. -/
structure Invocation where
  callback : Nat
  argv : List (List Byte)
  argc : Nat
  cmdCtx : Nat
deriving DecidableEq, Repr

/-- The slot-matching test of the execute loop: the slot is valid and
both strncasecmp comparisons (bounded by 32) report equality. -/
def matchesSlot (tc : TokenizedCommand) (c : DispatcherCommand) : Bool :=
  c.valid && strncaseeq tc.target c.cfg.target DISPATCHER_TARGET_MAX_SIZE
          && strncaseeq tc.action c.cfg.action DISPATCHER_ACTION_MAX_SIZE

/-- The slot scan of dispatcher_execute, walking the slot array in index
order.  The empty case folds in the post-loop fixup of the C code: when
no slot matched and no null-callback error is pending the result is
cmdNotFound.  A matching slot with a NULL callback yields nullArg with
no invocation; otherwise the first matching slot is invoked once. -/
def dispatcher_scan (tc : TokenizedCommand) (ctxid : Nat) :
    List DispatcherCommand → DispatcherError × List Invocation
  | [] => (.cmdNotFound, [])
  | c :: cs =>
      if matchesSlot tc c then
        match c.cfg.callback with
        | none => (.nullArg, [])
        | some cb => (.ok, [⟨cb, tc.argv, tc.argv.length, ctxid⟩])
      else dispatcher_scan tc ctxid cs

/-- Observable events of one dispatcher_execute call: taking and
releasing the dispatcher lock, and handler invocations. -/
inductive ExecEvent
  | lockTaken
  | invoke (i : Invocation)
  | lockReleased
deriving DecidableEq, Repr

/-- Embedding of dispatcher_execute: the own buffer length check with
strnlen(buf, DISPATCHER_MAX_BUF_SIZE), then tokenization, then the slot
scan between the lock-take and lock-release events.  Validation
failures return before the lock is taken, so their event list is
empty.  Null guards on ctx and buf, and pthread failure paths, are
omitted. -/
def dispatcher_execute (cmd_list : List DispatcherCommand) (delim buf : List Byte)
    (ctxid : Nat) : DispatcherError × List ExecEvent :=
  if strnlen buf DISPATCHER_MAX_BUF_SIZE ≥ DISPATCHER_MAX_BUF_SIZE then (.bufTooLong, [])
  else
    let r := dispatcher_tokenize delim buf
    if r.1 ≠ .ok then (r.1, [])
    else
      let s := dispatcher_scan r.2 ctxid cmd_list
      (s.1, .lockTaken :: (s.2.map .invoke ++ [.lockReleased]))

/-- Index of the first slot that the execute loop would match: the least
index of a valid slot whose target and action compare equal to the
parsed ones.  This definition exists to state the routing theorem; the
scan itself is dispatcher_scan. -/
def firstMatchIdx (tc : TokenizedCommand) : List DispatcherCommand → Option Nat
  | [] => none
  | c :: cs =>
      if matchesSlot tc c then some 0 else (firstMatchIdx tc cs).map (· + 1)

/-- Embedding of the delimiter validation in dispatcher_init: the check
strnlen(delim, DISPATCHER_MAX_DELIM_SIZE - 1) >= DISPATCHER_MAX_DELIM_SIZE - 1
rejects with the delimiter-too-long error; null guards and the mutex
initialisation are omitted. -/
def dispatcher_init (delim : List Byte) : DispatcherError :=
  if strnlen delim (DISPATCHER_MAX_DELIM_SIZE - 1) ≥ DISPATCHER_MAX_DELIM_SIZE - 1 then
    .delimTooLong
  else .ok

/-! Server facade, from network.c (the version whose Server_t embeds the
client list and a server lock, and whose ServerClient_t carries a
per-client I/O lock). -/

/-- Error codes of the server, from ServerError_t. -/
inductive ServerError
  | ok
  | netFailure
  | nullArgument
  | mallocFailure
  | pthreadFailure
  | eventfdFailure
  | llistFailure
  | epollFailure
  | clientDisconnected
  | generic
deriving DecidableEq, Repr

/-- Result state of one server_read call: the returned error, the value
left in the len out-parameter, whether the per-client I/O mutex is
still locked when the function returns, and whether the call closed the
client socket. -/
structure ReadResult where
  err : ServerError
  lenOut : Int
  lockHeld : Bool
  socketClosed : Bool
deriving DecidableEq, Repr

/-- Embedding of server_read.  argsNull embeds the null guard on ctx,
buf and len; r is the value returned by recv and wouldBlock tells
whether errno was EAGAIN or EWOULDBLOCK when r is negative.  The mutex
acquisition is assumed to succeed; the code never closes the socket. -/
def server_read (argsNull : Bool) (r : Int) (wouldBlock : Bool) : ReadResult :=
  if argsNull then ⟨.nullArgument, 0, false, false⟩
  else
    if r < 0 ∧ wouldBlock = true then ⟨.ok, r, true, false⟩
    else if r ≤ 0 then ⟨.clientDisconnected, r, true, false⟩
    else ⟨.ok, r, false, false⟩

/-- Result state of one server_write call: the returned error, whether
the per-client I/O mutex is still locked on return, and the number of
bytes sent before returning. -/
structure WriteResult where
  err : ServerError
  lockHeld : Bool
  sentTotal : Nat
deriving DecidableEq, Repr

/-- The partial-send loop of server_write: sends lists the successive
return values of send.  A non-positive send return yields netFailure
with the mutex still locked; completing the requested length unlocks
and returns ok.  The result is none when the supplied schedule runs out
before the loop decides (send in C always returns a value, so this case
corresponds to no real execution). -/
def server_write_loop (len : Nat) (sends : List Int) (sent : Nat) : Option WriteResult :=
  if sent ≥ len then some ⟨.ok, false, sent⟩
  else
    match sends with
    | [] => none
    | b :: rest =>
        if b ≤ 0 then some ⟨.netFailure, true, sent⟩
        else server_write_loop len rest (sent + b.toNat)

/-- Embedding of server_write: null guard, then the lock is taken and
the send loop runs. -/
def server_write (argsNull : Bool) (len : Nat) (sends : List Int) : Option WriteResult :=
  if argsNull then some ⟨.nullArgument, false, 0⟩
  else server_write_loop len sends 0

/-- First failing result among the server_disconnect calls that
server_shutdown makes for each registered client, in list order. -/
def firstDisconnectFailure : List ServerError → Option ServerError
  | [] => none
  | e :: es => if e ≠ .ok then some e else firstDisconnectFailure es

/-- Result state of one server_shutdown call: the returned error,
whether the server lock is still held on return, and whether the
shutdown eventfd was successfully written (the listener told to exit). -/
structure ShutdownResult where
  err : ServerError
  serverLockHeld : Bool
  shutdownSignalled : Bool
deriving DecidableEq, Repr

/-- Embedding of server_shutdown.  ctxNull embeds the null guard; discs
lists the results of server_disconnect for each client in registry
order; efdWriteOk tells whether the write to the shutdown eventfd
returned the full 8 bytes.  The server lock is taken after the null
guard; a failed client disconnect returns that error before the
eventfd write and before the unlock; a failed eventfd write also
returns before the unlock. -/
def server_shutdown (ctxNull : Bool) (discs : List ServerError) (efdWriteOk : Bool) :
    ShutdownResult :=
  if ctxNull then ⟨.nullArgument, false, false⟩
  else
    match firstDisconnectFailure discs with
    | some e => ⟨e, true, false⟩
    | none =>
        if efdWriteOk = false then ⟨.eventfdFailure, true, false⟩
        else ⟨.ok, false, true⟩

/-! Listener admission path, from server_handle_conn_request. -/

/-- Observable steps of server_handle_conn_request after accept
returned a socket, in program order. -/
inductive AdmEvent
  | acceptConn
  | closeSocket
  | mutexInit
  | eventfdCreate
  | spawnWorker
  | insertRegistry
  | ipLookup
  | connectCb
deriving DecidableEq, Repr

/-- Steps of the admission-control drop path: the accepted socket is
closed immediately and nothing else happens. -/
def droppedConnTrace : List AdmEvent := [.acceptConn, .closeSocket]

/-- Steps of the admitted path in the program order of the C code: the
client lock and disconnect eventfd are initialised, the worker thread
is spawned, the handle is pushed onto the registry, the peer address
is looked up and the connect callback fires. -/
def admittedConnTrace : List AdmEvent :=
  [.acceptConn, .mutexInit, .eventfdCreate, .spawnWorker, .insertRegistry,
   .ipLookup, .connectCb]

/-- Embedding of server_handle_conn_request with all kernel and pthread
calls succeeding: accept one connection; when the registry already
holds at least max_clients entries, close the accepted socket and
return ok (a drop, not an error); otherwise run the admitted path. -/
def server_handle_conn_request (maxClients regLen : Nat) : ServerError × List AdmEvent :=
  if regLen ≥ maxClients then (.ok, droppedConnTrace)
  else (.ok, admittedConnTrace)

/-- Sequential processing of n incoming connection requests starting
from an empty registry, all kernel calls succeeding and no client
disconnecting in between: the registry grows by one exactly when the
handle was inserted.  Returns the final registry length and the
outcomes in arrival order. -/
def processConnRequests (maxClients : Nat) : Nat → Nat × List (ServerError × List AdmEvent)
  | 0 => (0, [])
  | n + 1 =>
      let p := processConnRequests maxClients n
      let o := server_handle_conn_request maxClients p.1
      (p.1 + (if AdmEvent.insertRegistry ∈ o.2 then 1 else 0), p.2 ++ [o])

/-! Client worker loop, from server_client_handler. -/

/-- Outcome of the one-byte MSG_PEEK recv at the top of the worker
loop: data available, would-block (EAGAIN or EWOULDBLOCK), the peer
closed the stream, or a non-retryable error. -/
inductive PeekResult
  | gotData
  | wouldBlock
  | endOfStream
  | hardError
deriving DecidableEq, Repr

/-- One epoll event seen by the worker: the client socket became
readable (with the peek outcome) or the disconnect eventfd became
readable. -/
inductive ClientEvent
  | sockReady (p : PeekResult)
  | wakeReady
deriving DecidableEq, Repr

/-- Observable actions of the worker thread. -/
inductive ClientAction
  | dataCb
  | closeSocket
  | closeWake
  | closeEpoll
  | removeRegistry
  | destroyLock
  | disconnectCb
  | threadExit
deriving DecidableEq, Repr

/-- Whether a peek outcome makes the worker treat the event as a
client-initiated disconnect (peek returned zero, or negative with an
errno that is not EAGAIN or EWOULDBLOCK). -/
def isSelfDisconnect : PeekResult → Bool
  | .endOfStream => true
  | .hardError => true
  | _ => false

/-- Whether one epoll event is a client-initiated disconnect
observation. -/
def selfDisconnectEvent : ClientEvent → Bool
  | .sockReady p => isSelfDisconnect p
  | .wakeReady => false

/-- The teardown block of the worker: close the client socket, the
disconnect eventfd and the epoll descriptor, remove the handle from the
registry, destroy the client lock, then invoke the disconnect callback
exactly when the path was client-initiated, and exit the thread. -/
def teardown (selfDisc : Bool) : List ClientAction :=
  [.closeSocket, .closeWake, .closeEpoll, .removeRegistry, .destroyLock] ++
    (if selfDisc then [.disconnectCb] else []) ++ [.threadExit]

/-- The inner for-loop of the worker over the events of one epoll
batch, threading the self_disconnect flag.  Returns the emitted
actions, whether the thread exited inside this batch, and the flag
value after the batch. -/
def clientEventsRun (sd : Bool) : List ClientEvent → List ClientAction × Bool × Bool
  | [] => ([], false, sd)
  | e :: rest =>
      match e with
      | .sockReady p =>
          if isSelfDisconnect p then (teardown true, true, true)
          else
            if sd then (.dataCb :: teardown sd, true, sd)
            else
              let t := clientEventsRun sd rest
              (.dataCb :: t.1, t.2.1, t.2.2)
      | .wakeReady => (teardown sd, true, sd)

/-- The while-loop of the worker over successive epoll batches: the
self_disconnect flag is declared before the loop, and the thread runs
until a batch tears it down. -/
def clientHandlerRun (sd : Bool) : List (List ClientEvent) → List ClientAction
  | [] => []
  | b :: bs =>
      match clientEventsRun sd b with
      | (acts, true, _) => acts
      | (acts, false, sd2) => acts ++ clientHandlerRun sd2 bs

/-! Helper lemmas about the dispatcher scan. -/

theorem maxBufSize_eq : DISPATCHER_MAX_BUF_SIZE = 396 := rfl

theorem dispatcher_scan_of_none (tc : TokenizedCommand) (ctxid : Nat) :
    ∀ slots, firstMatchIdx tc slots = none →
      dispatcher_scan tc ctxid slots = (.cmdNotFound, [])
  | [], _ => rfl
  | c :: cs, h => by
      rw [firstMatchIdx] at h
      cases hm : matchesSlot tc c with
      | true => rw [hm] at h; simp at h
      | false =>
          rw [hm] at h
          simp only [Bool.false_eq_true, if_false, Option.map_eq_none'] at h
          rw [dispatcher_scan, hm]
          simp only [Bool.false_eq_true, if_false]
          exact dispatcher_scan_of_none tc ctxid cs h

theorem dispatcher_scan_of_some (tc : TokenizedCommand) (ctxid : Nat) :
    ∀ slots i c cb, firstMatchIdx tc slots = some i → slots[i]? = some c →
      c.cfg.callback = some cb →
      dispatcher_scan tc ctxid slots = (.ok, [⟨cb, tc.argv, tc.argv.length, ctxid⟩])
  | [], i, c, cb, h, _, _ => by simp [firstMatchIdx] at h
  | s :: ss, i, c, cb, h, hget, hcb => by
      rw [firstMatchIdx] at h
      cases hm : matchesSlot tc s with
      | true =>
          rw [hm] at h
          simp only [if_true, Option.some.injEq] at h
          subst h
          simp only [List.getElem?_cons_zero, Option.some.injEq] at hget
          subst hget
          rw [dispatcher_scan, hm]
          simp [hcb]
      | false =>
          rw [hm] at h
          simp only [Bool.false_eq_true, if_false, Option.map_eq_some'] at h
          obtain ⟨i', hi', rfl⟩ := h
          rw [List.getElem?_cons_succ] at hget
          rw [dispatcher_scan, hm]
          simp only [Bool.false_eq_true, if_false]
          exact dispatcher_scan_of_some tc ctxid ss i' c cb hi' hget hcb

theorem firstMatchIdx_matches (tc : TokenizedCommand) :
    ∀ slots i c, firstMatchIdx tc slots = some i → slots[i]? = some c →
      matchesSlot tc c = true
  | [], i, c, h, _ => by simp [firstMatchIdx] at h
  | s :: ss, i, c, h, hget => by
      rw [firstMatchIdx] at h
      cases hm : matchesSlot tc s with
      | true =>
          rw [hm] at h
          simp only [if_true, Option.some.injEq] at h
          subst h
          simp only [List.getElem?_cons_zero, Option.some.injEq] at hget
          subst hget
          exact hm
      | false =>
          rw [hm] at h
          simp only [Bool.false_eq_true, if_false, Option.map_eq_some'] at h
          obtain ⟨i', hi', rfl⟩ := h
          rw [List.getElem?_cons_succ] at hget
          exact firstMatchIdx_matches tc ss i' c hi' hget

theorem firstMatchIdx_min (tc : TokenizedCommand) :
    ∀ slots i, firstMatchIdx tc slots = some i →
      ∀ j cj, j < i → slots[j]? = some cj → matchesSlot tc cj = false
  | [], i, h, _, _, _, _ => by simp [firstMatchIdx] at h
  | s :: ss, i, h, j, cj, hj, hget => by
      rw [firstMatchIdx] at h
      cases hm : matchesSlot tc s with
      | true =>
          rw [hm] at h
          simp only [if_true, Option.some.injEq] at h
          subst h
          omega
      | false =>
          rw [hm] at h
          simp only [Bool.false_eq_true, if_false, Option.map_eq_some'] at h
          obtain ⟨i', hi', rfl⟩ := h
          match j with
          | 0 =>
              simp only [List.getElem?_cons_zero, Option.some.injEq] at hget
              subst hget
              exact hm
          | j' + 1 =>
              rw [List.getElem?_cons_succ] at hget
              exact firstMatchIdx_min tc ss i' hi' j' cj (by omega) hget

theorem getElem?_mem' {α : Type} : ∀ (l : List α) (i : Nat) (a : α), l[i]? = some a → a ∈ l
  | [], i, a, h => by simp at h
  | x :: xs, 0, a, h => by
      simp only [List.getElem?_cons_zero, Option.some.injEq] at h
      subst h
      exact List.mem_cons_self x xs
  | x :: xs, i + 1, a, h => by
      rw [List.getElem?_cons_succ] at h
      exact List.mem_cons_of_mem x (getElem?_mem' xs i a h)

/-- C1: for a populated table and a buffer that tokenizes successfully,
dispatcher_execute scans the slots in index order under the dispatcher
lock, matches by bounded ASCII-case-insensitive comparison of target
and action, invokes exactly the first matching valid slot once with
the argument vector, the argument count and the context pointer, and
returns cmdNotFound invoking nothing when no valid slot matches. -/
theorem dispatcher_execute_routes_first_match
    (slots : List DispatcherCommand) (delim buf : List Byte) (ctxid : Nat)
    (tc : TokenizedCommand)
    (hpop : ∀ c ∈ slots, c.valid = true → c.cfg.callback ≠ none)
    (hlen : buf.length < DISPATCHER_MAX_BUF_SIZE)
    (htok : dispatcher_tokenize delim buf = (.ok, tc)) :
    (firstMatchIdx tc slots = none →
        dispatcher_execute slots delim buf ctxid =
          (.cmdNotFound, [.lockTaken, .lockReleased])) ∧
    (∀ i c, firstMatchIdx tc slots = some i → slots[i]? = some c →
        matchesSlot tc c = true ∧
        (∀ j cj, j < i → slots[j]? = some cj → matchesSlot tc cj = false) ∧
        ∃ cb, c.cfg.callback = some cb ∧
          dispatcher_execute slots delim buf ctxid =
            (.ok, [.lockTaken, .invoke ⟨cb, tc.argv, tc.argv.length, ctxid⟩,
                   .lockReleased])) := by
  have hchk : ¬ (strnlen buf DISPATCHER_MAX_BUF_SIZE ≥ DISPATCHER_MAX_BUF_SIZE) := by
    unfold strnlen
    omega
  have hexec : dispatcher_execute slots delim buf ctxid =
      ((dispatcher_scan tc ctxid slots).1,
        .lockTaken :: ((dispatcher_scan tc ctxid slots).2.map .invoke ++ [.lockReleased])) := by
    unfold dispatcher_execute
    rw [if_neg hchk, htok]
    simp
  constructor
  · intro hnone
    rw [hexec, dispatcher_scan_of_none tc ctxid slots hnone]
    rfl
  · intro i c hsome hget
    have hmatch := firstMatchIdx_matches tc slots i c hsome hget
    refine ⟨hmatch, firstMatchIdx_min tc slots i hsome, ?_⟩
    have hvalid : c.valid = true := by
      have := hmatch
      unfold matchesSlot at this
      simp only [Bool.and_eq_true] at this
      exact this.1.1
    have hcbne := hpop c (getElem?_mem' slots i c hget) hvalid
    obtain ⟨cb, hcb⟩ := Option.ne_none_iff_exists'.mp hcbne
    refine ⟨cb, hcb, ?_⟩
    rw [hexec, dispatcher_scan_of_some tc ctxid slots i c cb hsome hget hcb]
    rfl

/-- Witness for C1 at a concrete table and buffer: the table holds one
slot for target gpio and action set with handler 7; the buffer spells
GPiO SeT 13; the handler is invoked once with argument vector [13],
argument count 1 and context 5. -/
theorem dispatcher_execute_routes_first_match_witness :
    dispatcher_execute [⟨true, ⟨[103, 112, 105, 111], [115, 101, 116], some 7⟩⟩]
        [32] [71, 80, 105, 79, 32, 83, 101, 84, 32, 49, 51] 5 =
      (.ok, [.lockTaken, .invoke ⟨7, [[49, 51]], 1, 5⟩, .lockReleased]) := by
  have h := dispatcher_execute_routes_first_match
      [⟨true, ⟨[103, 112, 105, 111], [115, 101, 116], some 7⟩⟩]
      [32] [71, 80, 105, 79, 32, 83, 101, 84, 32, 49, 51] 5
      ⟨[71, 80, 105, 79], [83, 101, 84], [[49, 51]]⟩
      (by decide) (by decide) (by decide)
  obtain ⟨-, -, cb, hcb, hx⟩ := h.2 0 ⟨true, ⟨[103, 112, 105, 111], [115, 101, 116], some 7⟩⟩
      (by decide) (by decide)
  have hcb7 : cb = 7 := by
    simpa using hcb.symm
  rw [hcb7] at hx
  exact hx

/-! Helper lemmas about the tokenizer error range. -/

theorem delimMax_eq : DISPATCHER_MAX_DELIM_SIZE = 8 := rfl

theorem tokArgsLoop_err_cases (delim : List Byte) :
    ∀ n next, (tokArgsLoop delim n next).1 = .ok ∨ (tokArgsLoop delim n next).1 = .tokenTooLong
  | 0, _ => Or.inl rfl
  | n + 1, next => by
      rw [tokArgsLoop]
      cases hst : strtok delim next with
      | none => simp
      | some p =>
          obtain ⟨tok, next2⟩ := p
          simp only
          by_cases h : strnlen tok (DISPATCHER_ARG_MAX_SIZE - 1) ≥ DISPATCHER_ARG_MAX_SIZE
          · rw [if_pos h]
            exact Or.inr rfl
          · rw [if_neg h]
            simpa using tokArgsLoop_err_cases delim n next2

theorem dispatcher_tokenize_ne_bufTooLong (delim buf : List Byte) :
    (dispatcher_tokenize delim buf).1 ≠ .bufTooLong := by
  have h1 : ¬ (strnlen buf (DISPATCHER_MAX_BUF_SIZE - 1) ≥ DISPATCHER_MAX_BUF_SIZE) := by
    simp only [strnlen, maxBufSize_eq]
    omega
  unfold dispatcher_tokenize
  rw [if_neg h1]
  cases hst1 : strtok delim buf with
  | none => simp
  | some p =>
      obtain ⟨t1, n1⟩ := p
      simp only
      by_cases h2 : strnlen t1 (DISPATCHER_TARGET_MAX_SIZE - 1) ≥ DISPATCHER_TARGET_MAX_SIZE
      · rw [if_pos h2]
        simp
      · rw [if_neg h2]
        cases hst2 : strtok delim n1 with
        | none => simp
        | some q =>
            obtain ⟨t2, n2⟩ := q
            simp only
            by_cases h3 : strnlen t2 (DISPATCHER_ACTION_MAX_SIZE - 1) ≥ DISPATCHER_ACTION_MAX_SIZE
            · rw [if_pos h3]
              simp
            · rw [if_neg h3]
              rcases tokArgsLoop_err_cases delim DISPATCHER_MAX_ARGS n2 with he | he <;>
                by_cases hf : (tokArgsLoop delim DISPATCHER_MAX_ARGS n2).2.2 = [] <;>
                  simp [he, hf]

theorem dispatcher_scan_err_cases (tc : TokenizedCommand) (ctxid : Nat) :
    ∀ slots, (dispatcher_scan tc ctxid slots).1 = .ok ∨
      (dispatcher_scan tc ctxid slots).1 = .nullArg ∨
      (dispatcher_scan tc ctxid slots).1 = .cmdNotFound
  | [] => Or.inr (Or.inr rfl)
  | c :: cs => by
      rw [dispatcher_scan]
      cases hm : matchesSlot tc c with
      | false => simpa using dispatcher_scan_err_cases tc ctxid cs
      | true =>
          cases c.cfg.callback with
          | none => simp
          | some cb => simp

theorem dropWhile_eq_nil_of_all (p : Byte → Bool) :
    ∀ l : List Byte, (∀ c ∈ l, p c = true) → l.dropWhile p = []
  | [], _ => rfl
  | c :: cs, h => by
      rw [List.dropWhile_cons, if_pos (h c (List.mem_cons_self c cs))]
      exact dropWhile_eq_nil_of_all p cs (fun x hx => h x (List.mem_cons_of_mem c hx))

theorem strtok_none_of_all_delim (delim s : List Byte)
    (h : ∀ c ∈ s, isDelim delim c = true) : strtok delim s = none := by
  unfold strtok
  rw [dropWhile_eq_nil_of_all (isDelim delim) s h]

/-- C7: dispatcher_execute rejects a buffer of length exactly
DISPATCHER_MAX_BUF_SIZE (396) with bufTooLong, never reports
bufTooLong for a buffer one byte shorter, returns bufEmpty for any
in-range buffer made only of delimiter bytes, and invokes no handler
on any of these validation failures (the event list stays empty). -/
theorem dispatcher_execute_buffer_bounds (slots : List DispatcherCommand)
    (delim : List Byte) (ctxid : Nat) :
    (∀ buf : List Byte, buf.length = DISPATCHER_MAX_BUF_SIZE →
        dispatcher_execute slots delim buf ctxid = (.bufTooLong, [])) ∧
    (∀ buf : List Byte, buf.length = DISPATCHER_MAX_BUF_SIZE - 1 →
        (dispatcher_execute slots delim buf ctxid).1 ≠ .bufTooLong) ∧
    (∀ buf : List Byte, buf.length < DISPATCHER_MAX_BUF_SIZE →
        (∀ c ∈ buf, isDelim delim c = true) →
        dispatcher_execute slots delim buf ctxid = (.bufEmpty, [])) := by
  refine ⟨fun buf hlen => ?_, fun buf hlen => ?_, fun buf hlen hdel => ?_⟩
  · unfold dispatcher_execute
    rw [if_pos (by simp only [strnlen, maxBufSize_eq] at hlen ⊢; omega)]
  · unfold dispatcher_execute
    rw [if_neg (by simp only [strnlen, maxBufSize_eq] at hlen ⊢; omega)]
    by_cases he : (dispatcher_tokenize delim buf).1 = .ok
    · simp only [he, ne_eq, not_true_eq_false, if_false]
      rcases dispatcher_scan_err_cases (dispatcher_tokenize delim buf).2 ctxid slots
        with h | h | h <;> simp [h]
    · simp only [he, ne_eq, not_false_eq_true, if_true]
      simpa using dispatcher_tokenize_ne_bufTooLong delim buf
  · have htk : dispatcher_tokenize delim buf = (.bufEmpty, emptyTok) := by
      unfold dispatcher_tokenize
      rw [if_neg (by simp only [strnlen, maxBufSize_eq]; omega)]
      rw [strtok_none_of_all_delim delim buf hdel]
    unfold dispatcher_execute
    rw [if_neg (by simp only [strnlen, maxBufSize_eq] at hlen ⊢; omega), htk]
    simp

/-- Witness for C7 at concrete buffers: a 396-byte buffer of letter a
is rejected with bufTooLong and no handler runs; a buffer of two
spaces with the space delimiter yields bufEmpty and no handler runs. -/
theorem dispatcher_execute_buffer_bounds_witness :
    dispatcher_execute [] [32] (List.replicate 396 97) 0 = (.bufTooLong, []) ∧
    dispatcher_execute [] [32] [32, 32] 0 = (.bufEmpty, []) :=
  ⟨(dispatcher_execute_buffer_bounds [] [32] 0).1 (List.replicate 396 97)
      (by rw [List.length_replicate, maxBufSize_eq]),
   (dispatcher_execute_buffer_bounds [] [32] 0).2.2 [32, 32] (by decide) (by decide)⟩

/-- C4: evaluation of the code at the failing input.  A target token of
exactly DISPATCHER_TARGET_MAX_SIZE (32) bytes is not rejected: the
length guard compares strnlen(token, 31), which never reaches 32, so
tokenization succeeds and silently truncates the target to its first
31 bytes; execute does not return tokenTooLong either.  A 31-byte
target is accepted as the claim states. -/
theorem dispatcher_tokenize_accepts_max_length_token :
    dispatcher_tokenize [32] (List.replicate 32 97 ++ [32, 120]) =
      (.ok, ⟨List.replicate 31 97, [120], []⟩) ∧
    dispatcher_tokenize [32] (List.replicate 31 97 ++ [32, 120]) =
      (.ok, ⟨List.replicate 31 97, [120], []⟩) ∧
    (dispatcher_execute [] [32] (List.replicate 32 97 ++ [32, 120]) 0).1 ≠ .tokenTooLong := by
  decide

/-- C8 counterexample: dispatcher_init rejects delimiters of length 7
and 8 with delimTooLong and accepts the empty delimiter, contrary to
the claim that every length 1 through 8 is accepted and the empty
delimiter rejected. -/
theorem dispatcher_init_delim_claim_cex :
    dispatcher_init (List.replicate 7 97) = .delimTooLong ∧
    dispatcher_init (List.replicate 8 97) = .delimTooLong ∧
    dispatcher_init [] = .ok := by
  decide

/-- C8 amended: dispatcher_init succeeds exactly when the delimiter is
shorter than DISPATCHER_MAX_DELIM_SIZE - 1 = 7 bytes; the empty
delimiter is accepted (emptiness is not validated) and lengths 7 and
up fail with delimTooLong. -/
theorem dispatcher_init_ok_iff (delim : List Byte) :
    dispatcher_init delim = .ok ↔ delim.length < DISPATCHER_MAX_DELIM_SIZE - 1 := by
  unfold dispatcher_init
  by_cases h : strnlen delim (DISPATCHER_MAX_DELIM_SIZE - 1) ≥ DISPATCHER_MAX_DELIM_SIZE - 1
  · rw [if_pos h]
    simp only [strnlen, delimMax_eq] at h
    constructor
    · intro hx
      exact absurd hx (by decide)
    · intro hlt
      simp only [delimMax_eq] at hlt
      exfalso
      omega
  · rw [if_neg h]
    simp only [strnlen, delimMax_eq] at h
    constructor
    · intro _
      simp only [delimMax_eq]
      omega
    · intro _
      rfl

/-! Server read and write: lock discipline and return paths. -/

/-- C2 counterexample: on the would-block path (recv returned -1 with
EAGAIN or EWOULDBLOCK) server_read returns ok but leaves the value -1
from recv in the length out-parameter, not zero as the claim states. -/
theorem server_read_wouldblock_len_cex :
    (server_read false (-1) true).err = .ok ∧ (server_read false (-1) true).lenOut ≠ 0 := by
  decide

/-- C2 amended: with non-null arguments server_read takes the client
I/O lock, never closes the socket, returns ok with the length
out-parameter holding the recv return value -1 (not zero) on the
would-block path, returns clientDisconnected on end-of-stream or a
non-retryable error, and returns ok with the received length on the
data path. -/
theorem server_read_spec (r : Int) (wb : Bool) :
    ((server_read false r wb).socketClosed = false) ∧
    (r < 0 → wb = true → server_read false r wb = ⟨.ok, r, true, false⟩) ∧
    (r = 0 ∨ (r < 0 ∧ wb = false) →
        server_read false r wb = ⟨.clientDisconnected, r, true, false⟩) ∧
    (0 < r → server_read false r wb = ⟨.ok, r, false, false⟩) := by
  refine ⟨?_, ?_, ?_, ?_⟩
  · by_cases h1 : r < 0 ∧ wb = true
    · simp [server_read, h1]
    · by_cases h2 : r ≤ 0 <;> simp [server_read, h1, h2]
  · intro hr hw
    simp [server_read, hr, hw]
  · rintro (h0 | ⟨hr, hw⟩)
    · subst h0
      simp [server_read]
    · have h1 : ¬ (r < 0 ∧ wb = true) := by
        rintro ⟨-, hwt⟩
        rw [hw] at hwt
        exact absurd hwt (by decide)
      simp [server_read, h1, hr.le]
  · intro hr
    have h1 : ¬ (r < 0 ∧ wb = true) := by
      rintro ⟨hlt, -⟩
      omega
    have h2 : ¬ r ≤ 0 := by omega
    simp [server_read, h1, h2]

/-- Witness for the amended C2 at concrete recv outcomes: would-block
leaves -1 and keeps ok; end-of-stream yields clientDisconnected; a
2-byte read returns ok and releases the lock. -/
theorem server_read_spec_witness :
    server_read false (-1) true = ⟨.ok, -1, true, false⟩ ∧
    server_read false 0 false = ⟨.clientDisconnected, 0, true, false⟩ ∧
    server_read false 2 false = ⟨.ok, 2, false, false⟩ :=
  ⟨(server_read_spec (-1) true).2.1 (by decide) rfl,
   (server_read_spec 0 false).2.2.1 (Or.inl rfl),
   (server_read_spec 2 false).2.2.2 (by decide)⟩

theorem server_write_loop_netFailure_lock (len : Nat) :
    ∀ sends sent res, server_write_loop len sends sent = some res →
      res.err = .netFailure → res.lockHeld = true
  | sends, sent, res, h, herr => by
      rw [server_write_loop.eq_def] at h
      by_cases hge : sent ≥ len
      · rw [if_pos hge] at h
        simp only [Option.some.injEq] at h
        rw [← h] at herr
        simp at herr
      · rw [if_neg hge] at h
        cases sends with
        | nil => simp at h
        | cons b rest =>
            simp only at h
            by_cases hb : b ≤ 0
            · rw [if_pos hb] at h
              simp only [Option.some.injEq] at h
              rw [← h]
            · rw [if_neg hb] at h
              exact server_write_loop_netFailure_lock len rest (sent + b.toNat) res h herr

/-- C9: the early-return paths of server_read (would-block returning
ok with a negative recv value, and any clientDisconnected return) and
the failed-send path of server_write (netFailure) all return with the
per-client I/O mutex still locked: these paths skip the unlock of the
success path. -/
theorem io_early_returns_keep_lock (r : Int) (wb : Bool) (len : Nat)
    (sends : List Int) (res : WriteResult) :
    ((server_read false r wb).err = .ok → r < 0 →
        (server_read false r wb).lockHeld = true) ∧
    ((server_read false r wb).err = .clientDisconnected →
        (server_read false r wb).lockHeld = true) ∧
    (server_write false len sends = some res → res.err = .netFailure →
        res.lockHeld = true) := by
  refine ⟨?_, ?_, ?_⟩
  · intro herr hr
    by_cases hw : wb = true
    · simp [server_read, hr, hw]
    · have h1 : ¬ (r < 0 ∧ wb = true) := by
        rintro ⟨-, hwt⟩
        exact hw hwt
      simp [server_read, h1, hr.le] at herr
  · intro herr
    by_cases h1 : r < 0 ∧ wb = true
    · simp [server_read, h1] at herr
    · by_cases h2 : r ≤ 0
      · simp [server_read, h1, h2]
      · simp [server_read, h1, h2] at herr
  · intro hw herr
    have hw2 : server_write_loop len sends 0 = some res := by
      simpa [server_write] using hw
    exact server_write_loop_netFailure_lock len sends 0 res hw2 herr

/-- Witness for C9 at concrete outcomes: would-block read, eof read,
and a write whose first send fails all end with the lock held. -/
theorem io_early_returns_keep_lock_witness :
    (server_read false (-1) true).lockHeld = true ∧
    (server_read false 0 false).lockHeld = true ∧
    WriteResult.lockHeld ⟨.netFailure, true, 0⟩ = true :=
  ⟨(io_early_returns_keep_lock (-1) true 0 [] ⟨.netFailure, true, 0⟩).1
      (by decide) (by decide),
   (io_early_returns_keep_lock 0 false 0 [] ⟨.netFailure, true, 0⟩).2.1 (by decide),
   (io_early_returns_keep_lock 0 false 3 [-1] ⟨.netFailure, true, 0⟩).2.2
      (by decide) (by decide)⟩

/-- C10: if disconnecting any client fails, server_shutdown returns
that error with the server lock still held and without signalling the
shutdown eventfd (the listener is never told to exit); the eventfd is
signalled only when every per-client disconnect succeeded, in which
case shutdown unlocks and returns ok. -/
theorem server_shutdown_spec (discs : List ServerError) (efd : Bool) :
    (∀ e, firstDisconnectFailure discs = some e →
        server_shutdown false discs efd = ⟨e, true, false⟩) ∧
    ((server_shutdown false discs efd).shutdownSignalled = true →
        firstDisconnectFailure discs = none) ∧
    (firstDisconnectFailure discs = none → efd = true →
        server_shutdown false discs efd = ⟨.ok, false, true⟩) := by
  refine ⟨?_, ?_, ?_⟩
  · intro e he
    simp [server_shutdown, he]
  · intro hs
    cases hd : firstDisconnectFailure discs with
    | none => rfl
    | some e => simp [server_shutdown, hd] at hs
  · intro hd hefd
    simp [server_shutdown, hd, hefd]

/-- Witness for C10 at concrete inputs: with one failing client
disconnect, shutdown reports it with the lock held and the eventfd
unsignalled; with all disconnects ok, the eventfd is signalled and the
lock released. -/
theorem server_shutdown_spec_witness :
    server_shutdown false [.ok, .eventfdFailure] true = ⟨.eventfdFailure, true, false⟩ ∧
    server_shutdown false [.ok] true = ⟨.ok, false, true⟩ :=
  ⟨(server_shutdown_spec [.ok, .eventfdFailure] true).1 .eventfdFailure (by decide),
   (server_shutdown_spec [.ok] true).2.2 (by decide) rfl⟩

/-! Listener admission control. -/

theorem processConnRequests_under_cap (m : Nat) :
    ∀ n, n ≤ m → processConnRequests m n = (n, List.replicate n (.ok, admittedConnTrace))
  | 0, _ => rfl
  | n + 1, h => by
      have hn : n ≤ m := by omega
      have hc : ¬ (n ≥ m) := by omega
      rw [processConnRequests, processConnRequests_under_cap m n hn]
      dsimp only
      rw [server_handle_conn_request, if_neg hc]
      rw [List.replicate_succ']
      simp [admittedConnTrace]

/-- C3: when the registry already holds max_clients entries the
accepted socket is closed immediately, no handle is inserted, no
worker is spawned, no connect callback fires and the result is ok (a
drop, not an error); below the cap the connection is admitted.  Hence
processing max_clients + 1 sequential connection requests from an
empty registry admits the first max_clients and drops the last, which
never appears in the registry (final length max_clients). -/
theorem admission_control_spec :
    (∀ maxClients regLen : Nat, maxClients ≤ regLen →
        server_handle_conn_request maxClients regLen = (.ok, droppedConnTrace) ∧
        AdmEvent.closeSocket ∈ droppedConnTrace ∧
        AdmEvent.insertRegistry ∉ droppedConnTrace ∧
        AdmEvent.spawnWorker ∉ droppedConnTrace ∧
        AdmEvent.connectCb ∉ droppedConnTrace) ∧
    (∀ maxClients regLen : Nat, regLen < maxClients →
        server_handle_conn_request maxClients regLen = (.ok, admittedConnTrace) ∧
        AdmEvent.insertRegistry ∈ admittedConnTrace ∧
        AdmEvent.connectCb ∈ admittedConnTrace) ∧
    (∀ m : Nat,
        processConnRequests m m = (m, List.replicate m (.ok, admittedConnTrace)) ∧
        processConnRequests m (m + 1) =
          (m, List.replicate m (.ok, admittedConnTrace) ++ [(.ok, droppedConnTrace)])) := by
  refine ⟨?_, ?_, ?_⟩
  · intro maxClients regLen h
    refine ⟨?_, by decide, by decide, by decide, by decide⟩
    rw [server_handle_conn_request, if_pos (by omega)]
  · intro maxClients regLen h
    refine ⟨?_, by decide, by decide⟩
    rw [server_handle_conn_request, if_neg (by omega)]
  · intro m
    have hm : m ≤ m := le_refl m
    have hc : m ≥ m := le_refl m
    refine ⟨processConnRequests_under_cap m m hm, ?_⟩
    rw [processConnRequests, processConnRequests_under_cap m m hm]
    dsimp only
    rw [server_handle_conn_request, if_pos hc]
    simp [droppedConnTrace]

/-- Witness for C3 at max_clients = 2: both admission decisions and
the three-request scenario evaluated concretely. -/
theorem admission_control_spec_witness :
    server_handle_conn_request 2 2 = (.ok, droppedConnTrace) ∧
    server_handle_conn_request 2 0 = (.ok, admittedConnTrace) ∧
    processConnRequests 2 3 =
      (2, [(.ok, admittedConnTrace), (.ok, admittedConnTrace), (.ok, droppedConnTrace)]) :=
  ⟨((admission_control_spec.1 2 2 (by decide)).1),
   ((admission_control_spec.2.1 2 0 (by decide)).1),
   by
    have h := (admission_control_spec.2.2 2).2
    rw [h]
    rfl⟩

/-- C5 counterexample: in the admitted path of
server_handle_conn_request the worker thread is spawned strictly
before the handle is inserted into the registry, so insertion does not
precede the worker entering its own event loop; the claimed ordering
(insertion before worker start) does not hold in the code. -/
theorem insertion_order_cex :
    (server_handle_conn_request 1 0).2.indexOf AdmEvent.spawnWorker <
      (server_handle_conn_request 1 0).2.indexOf AdmEvent.insertRegistry ∧
    ¬ ((server_handle_conn_request 1 0).2.indexOf AdmEvent.insertRegistry <
        (server_handle_conn_request 1 0).2.indexOf AdmEvent.spawnWorker) := by
  decide

/-- C5 amended: for every admitted connection, insertion into the
registry strictly precedes the connect callback, but the worker thread
is spawned strictly before the insertion, so the worker may enter its
loop before the handle is registered. -/
theorem admission_ordering (maxClients regLen : Nat) (h : regLen < maxClients) :
    (server_handle_conn_request maxClients regLen).2.indexOf AdmEvent.insertRegistry <
      (server_handle_conn_request maxClients regLen).2.indexOf AdmEvent.connectCb ∧
    (server_handle_conn_request maxClients regLen).2.indexOf AdmEvent.spawnWorker <
      (server_handle_conn_request maxClients regLen).2.indexOf AdmEvent.insertRegistry := by
  rw [server_handle_conn_request, if_neg (by omega)]
  decide

/-- Witness for the amended C5 at max_clients = 1 and an empty
registry. -/
theorem admission_ordering_witness :
    admittedConnTrace.indexOf AdmEvent.insertRegistry <
      admittedConnTrace.indexOf AdmEvent.connectCb ∧
    admittedConnTrace.indexOf AdmEvent.spawnWorker <
      admittedConnTrace.indexOf AdmEvent.insertRegistry := by
  have h := admission_ordering 1 0 (by decide)
  rw [server_handle_conn_request, if_neg (by omega)] at h
  exact h

/-! Worker teardown and the disconnect callback. -/

theorem clientEventsRun_exit_shape :
    ∀ (evs : List ClientEvent) (sd : Bool), (clientEventsRun sd evs).2.1 = true →
      ∃ k f, (clientEventsRun sd evs).1 = List.replicate k .dataCb ++ teardown f ∧
        (f = true → sd = true ∨ ∃ e ∈ evs, selfDisconnectEvent e = true)
  | [], sd, h => by simp [clientEventsRun] at h
  | e :: rest, sd, h => by
      cases e with
      | wakeReady =>
          refine ⟨0, sd, by simp [clientEventsRun], fun hf => Or.inl hf⟩
      | sockReady p =>
          by_cases hp : isSelfDisconnect p = true
          · refine ⟨0, true, by simp [clientEventsRun, hp], fun _ => ?_⟩
            exact Or.inr ⟨.sockReady p, List.mem_cons_self _ _, by simpa using hp⟩
          · cases sd with
            | true =>
                refine ⟨1, true, ?_, fun _ => Or.inl rfl⟩
                simp [clientEventsRun, hp, List.replicate_succ]
            | false =>
                have h2 : (clientEventsRun false rest).2.1 = true := by
                  simpa [clientEventsRun, hp] using h
                obtain ⟨k, f, hacts, hev⟩ := clientEventsRun_exit_shape rest false h2
                refine ⟨k + 1, f, ?_, fun hf => ?_⟩
                · simp [clientEventsRun, hp, hacts, List.replicate_succ]
                · rcases hev hf with h1 | ⟨e2, he2, hsde⟩
                  · exact absurd h1 (by decide)
                  · exact Or.inr ⟨e2, List.mem_cons_of_mem _ he2, hsde⟩

theorem clientEventsRun_noexit_shape :
    ∀ (evs : List ClientEvent) (sd : Bool), (clientEventsRun sd evs).2.1 = false →
      (∃ k, (clientEventsRun sd evs).1 = List.replicate k .dataCb) ∧
      (clientEventsRun sd evs).2.2 = sd
  | [], sd, _ => ⟨⟨0, rfl⟩, rfl⟩
  | e :: rest, sd, h => by
      cases e with
      | wakeReady => simp [clientEventsRun] at h
      | sockReady p =>
          by_cases hp : isSelfDisconnect p = true
          · simp [clientEventsRun, hp] at h
          · cases sd with
            | true => simp [clientEventsRun, hp] at h
            | false =>
                have h2 : (clientEventsRun false rest).2.1 = false := by
                  simpa [clientEventsRun, hp] using h
                obtain ⟨⟨k, hk⟩, hsd2⟩ := clientEventsRun_noexit_shape rest false h2
                exact ⟨⟨k + 1, by simp [clientEventsRun, hp, hk, List.replicate_succ]⟩,
                       by simpa [clientEventsRun, hp] using hsd2⟩

theorem clientHandlerRun_disconnectCb (sd : Bool) :
    ∀ batches, ClientAction.disconnectCb ∈ clientHandlerRun sd batches →
      (sd = true ∨ ∃ b ∈ batches, ∃ e ∈ b, selfDisconnectEvent e = true) ∧
      ∃ k, clientHandlerRun sd batches = List.replicate k .dataCb ++ teardown true
  | [], h => by simp [clientHandlerRun] at h
  | b :: bs, h => by
      rw [clientHandlerRun] at h ⊢
      rcases ht : clientEventsRun sd b with ⟨acts, ex, sd2⟩
      rw [ht] at h
      cases ex with
      | true =>
          dsimp only at h ⊢
          have hex : (clientEventsRun sd b).2.1 = true := by rw [ht]
          obtain ⟨k, f, hacts, hev⟩ := clientEventsRun_exit_shape b sd hex
          rw [ht] at hacts
          dsimp only at hacts
          subst hacts
          have hf : f = true := by
            rcases List.mem_append.mp h with hm | hm
            · exact absurd (List.eq_of_mem_replicate hm) (by decide)
            · cases f with
              | true => rfl
              | false => exact absurd hm (by decide)
          subst hf
          refine ⟨?_, k, rfl⟩
          rcases hev rfl with h1 | ⟨e, he, hsde⟩
          · exact Or.inl h1
          · exact Or.inr ⟨b, List.mem_cons_self _ _, e, he, hsde⟩
      | false =>
          dsimp only at h ⊢
          have hnx : (clientEventsRun sd b).2.1 = false := by rw [ht]
          obtain ⟨⟨k, hk⟩, hsd2⟩ := clientEventsRun_noexit_shape b sd hnx
          rw [ht] at hk hsd2
          dsimp only at hk hsd2
          subst hk
          rw [hsd2] at h ⊢
          have hmem : ClientAction.disconnectCb ∈ clientHandlerRun sd bs := by
            rcases List.mem_append.mp h with hm | hm
            · exact absurd (List.eq_of_mem_replicate hm) (by decide)
            · exact hm
          obtain ⟨hsrc, k', hrun⟩ := clientHandlerRun_disconnectCb sd bs hmem
          refine ⟨?_, k + k', ?_⟩
          · rcases hsrc with h1 | ⟨b2, hb2, e, he, hsde⟩
            · exact Or.inl h1
            · exact Or.inr ⟨b2, List.mem_cons_of_mem _ hb2, e, he, hsde⟩
          · rw [hrun, ← List.append_assoc, ← List.replicate_add]

/-- C6: the disconnect callback of the worker fires only on a
client-initiated disconnect: if it appears in the action trace, the
whole trace is data callbacks followed by the teardown block, in which
the callback comes after closing the client socket, the wake eventfd
and the epoll descriptor, after removing the handle from the registry
and destroying the client lock, and is followed only by the thread
exit; when no socket event ever observes end-of-stream or a hard
error (in particular on a forced disconnect through the wake
descriptor, as during shutdown), the callback never fires. -/
theorem client_disconnect_callback_spec (batches : List (List ClientEvent)) :
    (ClientAction.disconnectCb ∈ clientHandlerRun false batches →
        ∃ k, clientHandlerRun false batches =
          List.replicate k .dataCb ++ teardown true) ∧
    ((∀ b ∈ batches, ∀ e ∈ b, selfDisconnectEvent e = false) →
        ClientAction.disconnectCb ∉ clientHandlerRun false batches) ∧
    teardown true = [.closeSocket, .closeWake, .closeEpoll, .removeRegistry, .destroyLock,
                     .disconnectCb, .threadExit] := by
  refine ⟨fun h => (clientHandlerRun_disconnectCb false batches h).2, fun hall h => ?_,
    by decide⟩
  obtain ⟨hsrc, -⟩ := clientHandlerRun_disconnectCb false batches h
  rcases hsrc with h1 | ⟨b, hb, e, he, hsde⟩
  · exact absurd h1 (by decide)
  · rw [hall b hb e he] at hsde
    exact absurd hsde (by decide)

/-- Witness for C6: a worker that sees end-of-stream tears down and
fires the callback last; a worker woken through the disconnect
eventfd never fires it. -/
theorem client_disconnect_callback_spec_witness :
    (∃ k, clientHandlerRun false [[.sockReady .endOfStream]] =
        List.replicate k .dataCb ++ teardown true) ∧
    ClientAction.disconnectCb ∉ clientHandlerRun false [[.wakeReady]] :=
  ⟨(client_disconnect_callback_spec [[.sockReady .endOfStream]]).1 (by decide),
   (client_disconnect_callback_spec [[.wakeReady]]).2.1 (by decide)⟩

end PiHub
